import Mathlib

/-!
# tailscale-derp-client-verifier: the admission cache of `main.go`

A shallow embedding of `src/main.go`.  The closure variables of `main`
(`nodes`, `lastUpdate`) become an explicit `CacheState`; the closure `searcher`
becomes a function from a state, a clock reading, a fetcher and a node key to
the new state and the decision.  The clock (`time.Now().Unix()`, an `int64`)
and the fetcher are inputs of every call.  `uint32` arithmetic is written
with an explicit `% 2^32`.
-/

namespace DerpVerifier

/-! ## Imported types (`tailscale.com/types/key`, `tailscale.com/tailcfg`) -/

/-- Go's `bytes.Compare`: lexicographic comparison of two byte strings,
giving `-1`, `0` or `+1`. -/
def bytesCompare : List Nat → List Nat → Int
  | [], [] => 0
  | [], _ :: _ => -1
  | _ :: _, [] => 1
  | a :: as, b :: bs =>
    if a < b then -1 else if b < a then 1 else bytesCompare as bs

/-- The type `key.NodePublic`: a node's public key, the byte array `k`
(32 bytes in the library; the development does not depend on the length). -/
structure NodePublic where
  k : List Nat
  deriving DecidableEq, Repr

/-- The method `key.NodePublic.Compare`, which is `bytes.Compare` on the two
keys' bytes. -/
def NodePublic.Compare (n l : NodePublic) : Int :=
  bytesCompare n.k l.k

/-- Go's `error` values, by their message. -/
abbrev Error := String

/-- What one invocation of a `Fetcher` returns: the pair `([]key.NodePublic, error)`.
A `nil` error is `none`. -/
structure FetchResult where
  nodes : List NodePublic
  err : Option Error
  deriving DecidableEq, Repr

/-- The type `Fetcher`, `func() ([]key.NodePublic, error)` (main.go:23). -/
abbrev Fetcher := Unit → FetchResult

/-! ## Machine integers and the interval -/

/-- The conversion `uint32(x)` of an `int64`: the value modulo `2^32`. -/
def uint32 (x : Int) : Nat :=
  (x % 4294967296).toNat

/-- Addition of two `uint32` values, which wraps around at `2^32`. -/
def uint32Add (a b : Nat) : Nat :=
  (a + b) % 4294967296

/-- The variable `interval` of `main` (main.go:35): `time.Minute`, a
`time.Duration` in nanoseconds. -/
def interval : Nat := 60 * 1000000000

/-- The expression `uint32(interval.Seconds())` (main.go:49): `Seconds` gives
the duration in seconds, here the whole number 60. -/
def intervalSeconds : Nat := interval / 1000000000

/-! ## The cache state and the searcher -/

/-- The lines the program writes with `log.Println`. -/
inductive LogLine where
  | fetching
  | fetchFailed (e : Error)
  | updated
  | allowed (n : NodePublic) (source : String)
  deriving DecidableEq, Repr

/-- The variables of `main` the closure `searcher` captures (main.go:43-44):
the node list `nodes` and the `uint32` timestamp `lastUpdate`. -/
structure CacheState where
  nodes : List NodePublic
  lastUpdate : Nat
  deriving DecidableEq, Repr

/-- The state `main` sets up before the first request: both variables hold
their zero value. -/
def CacheState.init : CacheState :=
  { nodes := [], lastUpdate := 0 }

/-- The result of one call of `searcher`: the state it leaves, whether it
invoked the fetcher, what it logged, and the decision it returned. -/
structure SearchResult where
  state : CacheState
  fetched : Bool
  log : List LogLine
  allow : Bool
  deriving DecidableEq, Repr

/-- The loop of main.go:65-70: the first element of `nodes` that `n` compares
equal to makes the result `true`; running off the end makes it `false`. -/
def lookup (n : NodePublic) : List NodePublic → Bool
  | [] => false
  | m :: rest => if n.Compare m = 0 then true else lookup n rest

/-- The guard of main.go:49, `now > lastUpdate + uint32(interval.Seconds())`,
on `uint32` values. -/
def refreshDue (lastUpdate now : Nat) : Bool :=
  decide (now > uint32Add lastUpdate intervalSeconds)

/-- The refresh block of `searcher` (main.go:49-61) at `uint32` time `now`:
the state it leaves, whether the fetcher was invoked, and the lines logged.
The timestamp is stored before the fetcher runs; `nodes` is assigned only
when the fetcher's error is `nil`. -/
def refresh (s : CacheState) (now : Nat) (fetcher : Fetcher) :
    CacheState × Bool × List LogLine :=
  if refreshDue s.lastUpdate now then
    let s1 : CacheState := { s with lastUpdate := now }
    let r := fetcher ()
    match r.err with
    | some e => (s1, true, [LogLine.fetching, LogLine.fetchFailed e])
    | none => ({ s1 with nodes := r.nodes }, true, [LogLine.fetching, LogLine.updated])
  else
    (s, false, [])

/-- The closure `searcher` (main.go:46-71), for a call that reads `unix` from
`time.Now().Unix()` and whose fetcher, if invoked, is `fetcher`: the refresh
block, then the lookup loop over the `nodes` current after it. -/
def searcher (s : CacheState) (unix : Int) (fetcher : Fetcher) (n : NodePublic) :
    SearchResult :=
  let now := uint32 unix
  let r := refresh s now fetcher
  { state := r.1, fetched := r.2.1, log := r.2.2, allow := lookup n r.1.nodes }

/-! ## Sequences of calls -/

/-- One call of `searcher` as the environment determines it: the clock
reading, the fetcher's behaviour at that moment, and the key asked about. -/
structure Call where
  unix : Int
  fetcher : Fetcher
  n : NodePublic

/-- The calls of a sequence run one after the other, each on the state the
previous one left; the list of their results. -/
def run (s : CacheState) : List Call → List SearchResult
  | [] => []
  | c :: cs =>
    let r := searcher s c.unix c.fetcher c.n
    r :: run r.state cs

/-- The number of calls of a sequence that invoked the fetcher. -/
def fetchCount (rs : List SearchResult) : Nat :=
  rs.countP (fun r => r.fetched)

/-- A fetcher that fails with the given message and returns the given list
alongside the error. -/
def failingFetcher (l : List NodePublic) (msg : Error) : Fetcher :=
  fun _ => { nodes := l, err := some msg }

/-- A fetcher that succeeds with the given list. -/
def fetcherOf (l : List NodePublic) : Fetcher :=
  fun _ => { nodes := l, err := none }

/-- Three distinct 32-byte keys for the scenarios. -/
def K1 : NodePublic := { k := List.replicate 32 1 }

/-- The second scenario key. -/
def K2 : NodePublic := { k := List.replicate 32 2 }

/-- The third scenario key. -/
def K3 : NodePublic := { k := List.replicate 32 3 }

/-! ## The HTTP handler -/

/-- The type `tailcfg.DERPAdmitClientRequest`: the key of the node asking to
be admitted and the address it connects from. -/
structure DERPAdmitClientRequest where
  NodePublic : NodePublic
  Source : String
  deriving DecidableEq, Repr

/-- The type `tailcfg.DERPAdmitClientResponse`. -/
structure DERPAdmitClientResponse where
  Allow : Bool
  deriving DecidableEq, Repr

/-- The constant `http.MethodPost`. -/
def MethodPost : String := "POST"

/-- The constant `http.StatusOK`. -/
def StatusOK : Nat := 200

/-- The constant `http.StatusBadRequest`. -/
def StatusBadRequest : Nat := 400

/-- The constant `http.StatusMethodNotAllowed`. -/
def StatusMethodNotAllowed : Nat := 405

/-- The constant `http.StatusInternalServerError`. -/
def StatusInternalServerError : Nat := 500

/-- The part of an `http.Request` the handler reads: the method and the
bytes of the body. -/
structure Request where
  Method : String
  Body : List Nat
  deriving DecidableEq, Repr

/-- What the handler wrote to its `http.ResponseWriter`: the status of
`WriteHeader` and the bytes of `Write`. -/
structure Written where
  status : Nat
  body : String
  deriving DecidableEq, Repr

/-- The call `json.Marshal(resp)` for a `DERPAdmitClientResponse`: a struct
with one boolean field, which `encoding/json` always encodes. -/
def jsonMarshal (resp : DERPAdmitClientResponse) : Except Error String :=
  if resp.Allow then Except.ok "\x7b\"Allow\":true\x7d"
  else Except.ok "\x7b\"Allow\":false\x7d"

/-- The argument `1<<13` of `io.LimitReader` (main.go:81). -/
def bodyLimit : Nat := 8192

/-- The result of one run of the handler: the state it leaves, what it
wrote, whether it called `searcher`, whether the fetcher was invoked, and
what was logged. -/
structure HandlerResult where
  state : CacheState
  written : Written
  searcherCalled : Bool
  fetched : Bool
  log : List LogLine
  deriving DecidableEq, Repr

/-- The handler registered on "/" (main.go:73-103).  The JSON decoder for
`tailcfg.DERPAdmitClientRequest` is the parameter `decode`; it sees at most
the first `1<<13` bytes of the body. -/
def handler (decode : List Nat → Except Error DERPAdmitClientRequest)
    (s : CacheState) (unix : Int) (fetcher : Fetcher) (r : Request) : HandlerResult :=
  if r.Method ≠ MethodPost then
    { state := s, written := { status := StatusMethodNotAllowed, body := "" },
      searcherCalled := false, fetched := false, log := [] }
  else
    match decode (r.Body.take bodyLimit) with
    | Except.error _ =>
      { state := s, written := { status := StatusBadRequest, body := "" },
        searcherCalled := false, fetched := false, log := [] }
    | Except.ok req =>
      let sr := searcher s unix fetcher req.NodePublic
      let resp : DERPAdmitClientResponse := { Allow := sr.allow }
      let lines :=
        if resp.Allow then sr.log ++ [LogLine.allowed req.NodePublic req.Source] else sr.log
      match jsonMarshal resp with
      | Except.error _ =>
        { state := sr.state, written := { status := StatusInternalServerError, body := "" },
          searcherCalled := true, fetched := sr.fetched, log := lines }
      | Except.ok b =>
        { state := sr.state, written := { status := StatusOK, body := b },
          searcherCalled := true, fetched := sr.fetched, log := lines }

/-- The white space a JSON decoder skips before a value, here the space
character (byte 32). -/
def skipSpaces : List Nat → List Nat
  | 32 :: rest => skipSpaces rest
  | l => l

/-- A request decoder for the examples.  Like `encoding/json` it skips
leading white space before the value and fails when the input ends before a
value is read; the value is the 32 bytes of the node key. -/
def decodeKey (input : List Nat) : Except Error DERPAdmitClientRequest :=
  if (skipSpaces input).length = 32 then
    Except.ok { NodePublic := { k := skipSpaces input }, Source := "" }
  else Except.error "unexpected EOF"

/-! ## Two calls of `searcher` running at once

The accesses of `searcher` to the shared variables are the atomic load of
`lastUpdate` (main.go:49), the atomic store to it (main.go:50), the
assignment to `nodes` under the write lock (main.go:56-58) and the loop
under the read lock (main.go:63-70).  A goroutine running `searcher` is a
small machine whose steps are these accesses and the call of the fetcher;
a schedule interleaves the steps of two goroutines. -/

/-- The point a goroutine running `searcher` has reached. -/
inductive Pc where
  | load
  | store
  | fetch
  | publish
  | lookup
  | done
  deriving DecidableEq, Repr

/-- The local variables of one call of `searcher`: `now` (main.go:47), the
argument `n`, the fetcher's list `_nodes`, the value returned, and a counter
of the fetcher invocations this call made. -/
structure Goroutine where
  pc : Pc
  now : Nat
  fetcher : Fetcher
  n : NodePublic
  fetchedNodes : List NodePublic
  fetches : Nat
  result : Option Bool

/-- A call of `searcher` that has read the clock and not yet loaded
`lastUpdate`. -/
def Goroutine.start (unix : Int) (fetcher : Fetcher) (n : NodePublic) : Goroutine :=
  { pc := Pc.load, now := uint32 unix, fetcher := fetcher, n := n,
    fetchedNodes := [], fetches := 0, result := none }

/-- One step of a goroutine on the shared variables. -/
def Goroutine.step (sh : CacheState) (g : Goroutine) : CacheState × Goroutine :=
  match g.pc with
  | Pc.load =>
    if refreshDue sh.lastUpdate g.now then (sh, { g with pc := Pc.store })
    else (sh, { g with pc := Pc.lookup })
  | Pc.store => ({ sh with lastUpdate := g.now }, { g with pc := Pc.fetch })
  | Pc.fetch =>
    let r := g.fetcher ()
    match r.err with
    | some _ => (sh, { g with pc := Pc.lookup, fetches := g.fetches + 1 })
    | none =>
      (sh, { g with pc := Pc.publish, fetchedNodes := r.nodes, fetches := g.fetches + 1 })
  | Pc.publish => ({ sh with nodes := g.fetchedNodes }, { g with pc := Pc.lookup })
  | Pc.lookup => (sh, { g with pc := Pc.done, result := some (lookup g.n sh.nodes) })
  | Pc.done => (sh, g)

/-- The two goroutines of a schedule. -/
inductive Who where
  | A
  | B
  deriving DecidableEq, Repr

/-- The shared variables and two goroutines running `searcher`. -/
structure System where
  shared : CacheState
  a : Goroutine
  b : Goroutine

/-- The system takes one step of the goroutine picked. -/
def System.step (sys : System) : Who → System
  | Who.A =>
    let r := sys.a.step sys.shared
    { sys with shared := r.1, a := r.2 }
  | Who.B =>
    let r := sys.b.step sys.shared
    { sys with shared := r.1, b := r.2 }

/-- The system runs a schedule, the list of the goroutines picked in turn. -/
def System.exec (sys : System) : List Who → System
  | [] => sys
  | w :: ws => (sys.step w).exec ws

/-- The number of fetcher invocations the two goroutines made. -/
def System.fetches (sys : System) : Nat :=
  sys.a.fetches + sys.b.fetches

/-- Both goroutines have returned. -/
def System.finished (sys : System) : Prop :=
  sys.a.pc = Pc.done ∧ sys.b.pc = Pc.done

/-- Two calls of `searcher` that both read the same clock value, before
either has loaded `lastUpdate`. -/
def System.start (s : CacheState) (unix : Int) (fa fb : Fetcher) (na nb : NodePublic) :
    System :=
  { shared := s, a := Goroutine.start unix fa na, b := Goroutine.start unix fb nb }

/-- The schedule's first two steps belong to different goroutines: both load
`lastUpdate` before either stores to it. -/
def loadsFirst : List Who → Bool
  | x :: y :: _ => decide (x ≠ y)
  | _ => false

/-- A goroutine that has passed the guard of main.go:49 with the answer
"refresh": it is before its fetch and has invoked the fetcher no times, or
after it and has invoked the fetcher once. -/
def Goroutine.Committed (g : Goroutine) : Prop :=
  ((g.pc = Pc.store ∨ g.pc = Pc.fetch) ∧ g.fetches = 0) ∨
    ((g.pc = Pc.publish ∨ g.pc = Pc.lookup ∨ g.pc = Pc.done) ∧ g.fetches = 1)

/-- A goroutine that has not invoked the fetcher and is not on its way to:
it is before the guard, or past it with the answer "no refresh". -/
def Goroutine.Passive (g : Goroutine) : Prop :=
  (g.pc = Pc.load ∨ g.pc = Pc.lookup ∨ g.pc = Pc.done) ∧ g.fetches = 0

/-- The number of steps a goroutine at this point takes at most before it
returns. -/
def Pc.remaining : Pc → Nat
  | Pc.load => 5
  | Pc.store => 4
  | Pc.fetch => 3
  | Pc.publish => 2
  | Pc.lookup => 1
  | Pc.done => 0

/-! ## Basic facts -/

theorem bytesCompare_eq_zero_iff (a b : List Nat) : bytesCompare a b = 0 ↔ a = b := by
  induction a generalizing b with
  | nil => cases b <;> simp [bytesCompare]
  | cons x xs ih =>
    cases b with
    | nil => simp [bytesCompare]
    | cons y ys =>
      simp only [bytesCompare, List.cons.injEq]
      by_cases h1 : x < y
      · simp only [h1, if_true]
        constructor
        · intro h; exact absurd h (by decide)
        · intro h; omega
      · by_cases h2 : y < x
        · simp only [h1, h2, if_true, if_false]
          constructor
          · intro h; exact absurd h (by decide)
          · intro h; omega
        · simp only [h1, h2, if_false, ih]
          constructor
          · intro h; exact ⟨by omega, h⟩
          · intro h; exact h.2

theorem compare_eq_zero_iff (n l : NodePublic) : n.Compare l = 0 ↔ n = l := by
  cases n; cases l
  simp [NodePublic.Compare, bytesCompare_eq_zero_iff]

theorem lookup_eq_true_iff (n : NodePublic) (l : List NodePublic) :
    lookup n l = true ↔ ∃ m ∈ l, n.Compare m = 0 := by
  induction l with
  | nil => simp [lookup]
  | cons m rest ih =>
    by_cases h : n.Compare m = 0
    · simp [lookup, h]
    · simp [lookup, h, ih]

theorem intervalSeconds_eq : intervalSeconds = 60 := by decide

theorem uint32_lt (x : Int) : uint32 x < 4294967296 := by
  unfold uint32
  have h := Int.emod_lt_of_pos x (show (0 : Int) < 4294967296 by decide)
  have h0 := Int.emod_nonneg x (show (4294967296 : Int) ≠ 0 by decide)
  omega

theorem uint32_of_range (x : Int) (h0 : 0 ≤ x) (h1 : x < 4294967296) :
    (uint32 x : Int) = x := by
  unfold uint32
  rw [Int.emod_eq_of_lt h0 h1]
  omega

theorem refreshDue_eq_true_iff (lastUpdate now : Nat) :
    refreshDue lastUpdate now = true ↔ (lastUpdate + 60) % 4294967296 < now := by
  simp [refreshDue, uint32Add, intervalSeconds_eq]

theorem refreshDue_no_wrap (lastUpdate now : Nat) (h : lastUpdate + 60 < 4294967296) :
    refreshDue lastUpdate now = true ↔ lastUpdate + 60 < now := by
  rw [refreshDue_eq_true_iff, Nat.mod_eq_of_lt h]

theorem searcher_fetched (s : CacheState) (unix : Int) (fetcher : Fetcher) (n : NodePublic) :
    (searcher s unix fetcher n).fetched = refreshDue s.lastUpdate (uint32 unix) := by
  unfold searcher refresh
  by_cases h : refreshDue s.lastUpdate (uint32 unix) = true
  · cases he : (fetcher ()).err <;> simp [h, he]
  · simp [h]

theorem searcher_allow (s : CacheState) (unix : Int) (fetcher : Fetcher) (n : NodePublic) :
    (searcher s unix fetcher n).allow = lookup n (searcher s unix fetcher n).state.nodes := by
  rfl

theorem searcher_state_not_due (s : CacheState) (unix : Int) (fetcher : Fetcher)
    (n : NodePublic) (h : refreshDue s.lastUpdate (uint32 unix) = false) :
    (searcher s unix fetcher n).state = s := by
  simp [searcher, refresh, h]

theorem searcher_state_failed (s : CacheState) (unix : Int) (fetcher : Fetcher)
    (n : NodePublic) (h : refreshDue s.lastUpdate (uint32 unix) = true)
    (e : Error) (he : (fetcher ()).err = some e) :
    (searcher s unix fetcher n).state = { s with lastUpdate := uint32 unix } := by
  simp [searcher, refresh, h, he]

theorem searcher_state_updated (s : CacheState) (unix : Int) (fetcher : Fetcher)
    (n : NodePublic) (h : refreshDue s.lastUpdate (uint32 unix) = true)
    (he : (fetcher ()).err = none) :
    (searcher s unix fetcher n).state =
      { nodes := (fetcher ()).nodes, lastUpdate := uint32 unix } := by
  simp [searcher, refresh, h, he]

/-! ## The lookup and the refresh of one call -/

/-- C1 (membership correctness): for every cache state, clock reading, fetcher
and key `x`, `searcher` returns `true` exactly when `x` compares equal
(`Compare == 0`) to some element of the node list that is current after the
call's refresh block, the list the lookup loop runs over. -/
theorem searcher_membership (s : CacheState) (unix : Int) (fetcher : Fetcher)
    (x : NodePublic) :
    (searcher s unix fetcher x).allow = true ↔
      ∃ m ∈ (searcher s unix fetcher x).state.nodes, x.Compare m = 0 := by
  rw [searcher_allow, lookup_eq_true_iff]

/-- C2 (fail-safe fallback): when a call attempts a refresh and the fetcher
returns an error, whatever list comes with the error, the node list after the
call is the node list before it, and the decision is membership of the key in
that list. -/
theorem searcher_fetch_failure (s : CacheState) (unix : Int) (fetcher : Fetcher)
    (x : NodePublic)
    (hattempt : (searcher s unix fetcher x).fetched = true)
    (herr : (fetcher ()).err ≠ none) :
    (searcher s unix fetcher x).state.nodes = s.nodes ∧
      ((searcher s unix fetcher x).allow = true ↔ ∃ m ∈ s.nodes, x.Compare m = 0) := by
  rw [searcher_fetched] at hattempt
  obtain ⟨e, he⟩ := Option.ne_none_iff_exists'.mp herr
  have hs := searcher_state_failed s unix fetcher x hattempt e he
  have hn : (searcher s unix fetcher x).state.nodes = s.nodes := by rw [hs]
  refine ⟨hn, ?_⟩
  rw [searcher_allow, lookup_eq_true_iff, hn]

/-- Witness of C2: state `{K1}` last refreshed at 0, a call at 61 whose fetcher
fails while returning `[K2]`. -/
theorem searcher_fetch_failure_witness :
    (searcher ⟨[K1], 0⟩ 61 (failingFetcher [K2] "open: no such file") K1).fetched = true ∧
    (failingFetcher [K2] "open: no such file" ()).err ≠ none ∧
    (searcher ⟨[K1], 0⟩ 61 (failingFetcher [K2] "open: no such file") K1).state.nodes = [K1] ∧
    ((searcher ⟨[K1], 0⟩ 61 (failingFetcher [K2] "open: no such file") K1).allow = true ↔
      ∃ m ∈ [K1], K1.Compare m = 0) :=
  ⟨by decide, by decide,
    searcher_fetch_failure ⟨[K1], 0⟩ 61 (failingFetcher [K2] "open: no such file") K1
      (by decide) (by decide)⟩

/-- C6 (whole-snapshot replacement): when a call attempts a refresh and the
fetcher succeeds with a list, the node list after the call is exactly that
list, and the decision of the same call is membership of the key in it. -/
theorem searcher_fetch_success (s : CacheState) (unix : Int) (fetcher : Fetcher)
    (x : NodePublic)
    (hattempt : (searcher s unix fetcher x).fetched = true)
    (hok : (fetcher ()).err = none) :
    (searcher s unix fetcher x).state.nodes = (fetcher ()).nodes ∧
      ((searcher s unix fetcher x).allow = true ↔
        ∃ m ∈ (fetcher ()).nodes, x.Compare m = 0) := by
  rw [searcher_fetched] at hattempt
  have hs := searcher_state_updated s unix fetcher x hattempt hok
  have hn : (searcher s unix fetcher x).state.nodes = (fetcher ()).nodes := by rw [hs]
  refine ⟨hn, ?_⟩
  rw [searcher_allow, lookup_eq_true_iff, hn]

/-- Witness of C6: state `{K1, K2}` last refreshed at 0, a call at 61 whose
fetcher succeeds with `[K3]`. -/
theorem searcher_fetch_success_witness :
    (searcher ⟨[K1, K2], 0⟩ 61 (fetcherOf [K3]) K1).fetched = true ∧
    (fetcherOf [K3] ()).err = none ∧
    (searcher ⟨[K1, K2], 0⟩ 61 (fetcherOf [K3]) K1).state.nodes = [K3] ∧
    ((searcher ⟨[K1, K2], 0⟩ 61 (fetcherOf [K3]) K1).allow = true ↔
      ∃ m ∈ [K3], K1.Compare m = 0) :=
  ⟨by decide, by decide,
    searcher_fetch_success ⟨[K1, K2], 0⟩ 61 (fetcherOf [K3]) K1 (by decide) (by decide)⟩

/-- C4 as stated fails: with `lastUpdate = 1000` a call at 1060, exactly 60
seconds later, does not invoke the fetcher although `1060 - 1000 >= 60`. -/
theorem refresh_at_exactly_interval_not_due :
    ¬ ((searcher ⟨[K1], 1000⟩ 1060 (fetcherOf [K1]) K1).fetched = true ↔
        (1060 : Int) - 1000 ≥ 60) := by
  decide

/-- C4 (amended): when `lastUpdate + 60` does not wrap around `2^32`, a call
invokes the fetcher exactly when `now - lastUpdate > 60`, `now` being the
clock reading as a `uint32`; so a call 61 seconds after the last attempt
refreshes, and a call exactly 60 seconds or 30 seconds after it does not. -/
theorem refresh_condition (s : CacheState) (unix : Int) (fetcher : Fetcher)
    (n : NodePublic) (hwrap : s.lastUpdate + 60 < 4294967296) :
    ((searcher s unix fetcher n).fetched = true ↔
        (uint32 unix : Int) - (s.lastUpdate : Int) > 60) ∧
      (uint32 unix = s.lastUpdate + 61 → (searcher s unix fetcher n).fetched = true) ∧
      (uint32 unix = s.lastUpdate + 60 → (searcher s unix fetcher n).fetched = false) ∧
      (uint32 unix = s.lastUpdate + 30 → (searcher s unix fetcher n).fetched = false) := by
  have key : (searcher s unix fetcher n).fetched = true ↔ s.lastUpdate + 60 < uint32 unix := by
    rw [searcher_fetched, refreshDue_no_wrap _ _ hwrap]
  refine ⟨?_, ?_, ?_, ?_⟩
  · rw [key]; omega
  · intro h; rw [key]; omega
  · intro h
    cases hf : (searcher s unix fetcher n).fetched
    · rfl
    · have := key.mp hf; omega
  · intro h
    cases hf : (searcher s unix fetcher n).fetched
    · rfl
    · have := key.mp hf; omega

/-- Witness of C4 (amended): `lastUpdate = 1000` and a call at 1061. -/
theorem refresh_condition_witness :
    (1000 + 60 < 4294967296) ∧
    (((searcher ⟨[K1], 1000⟩ 1061 (fetcherOf [K1]) K1).fetched = true ↔
        (uint32 1061 : Int) - ((1000 : Nat) : Int) > 60) ∧
      (uint32 1061 = 1000 + 61 →
        (searcher ⟨[K1], 1000⟩ 1061 (fetcherOf [K1]) K1).fetched = true) ∧
      (uint32 1061 = 1000 + 60 →
        (searcher ⟨[K1], 1000⟩ 1061 (fetcherOf [K1]) K1).fetched = false) ∧
      (uint32 1061 = 1000 + 30 →
        (searcher ⟨[K1], 1000⟩ 1061 (fetcherOf [K1]) K1).fetched = false)) :=
  ⟨by decide, refresh_condition ⟨[K1], 1000⟩ 1061 (fetcherOf [K1]) K1 (by decide)⟩

/-- C9 as stated fails: from the initial state a first call made at clock
reading 0 does not invoke the fetcher. -/
theorem first_call_at_zero_no_fetch :
    (searcher CacheState.init 0 (fetcherOf [K1]) K1).fetched = false := by
  decide

/-- C9 (amended): from the initial state (empty list, timestamp zero) the
first call invokes the fetcher exactly when the clock reading, as a `uint32`
number of seconds, is greater than 60. -/
theorem first_call_refreshes (unix : Int) (fetcher : Fetcher) (n : NodePublic) :
    (searcher CacheState.init unix fetcher n).fetched = true ↔ 60 < uint32 unix := by
  rw [searcher_fetched, refreshDue_eq_true_iff]
  simp [CacheState.init]

/-! ## Sequences of calls -/

theorem searcher_nodes_empty (s : CacheState) (unix : Int) (fetcher : Fetcher)
    (n : NodePublic) (hs : s.nodes = [])
    (hfail : (searcher s unix fetcher n).fetched = true → (fetcher ()).err ≠ none) :
    (searcher s unix fetcher n).state.nodes = [] ∧
      (searcher s unix fetcher n).allow = false := by
  have hn : (searcher s unix fetcher n).state.nodes = [] := by
    cases hf : (searcher s unix fetcher n).fetched
    · rw [searcher_fetched] at hf
      rw [searcher_state_not_due s unix fetcher n hf, hs]
    · obtain ⟨e, he⟩ := Option.ne_none_iff_exists'.mp (hfail hf)
      rw [searcher_fetched] at hf
      rw [searcher_state_failed s unix fetcher n hf e he]
      exact hs
  refine ⟨hn, ?_⟩
  rw [searcher_allow, hn]
  rfl

theorem run_nodes_empty (calls : List Call) :
    ∀ s : CacheState, s.nodes = [] →
      (∀ p ∈ List.zip calls (run s calls),
        p.2.fetched = true → (p.1.fetcher ()).err ≠ none) →
      ∀ r ∈ run s calls, r.allow = false := by
  induction calls with
  | nil => intro s _ _ r hr; simp [run] at hr
  | cons c cs ih =>
    intro s hs hfail r hr
    simp only [run, List.zip_cons_cons, List.mem_cons] at hfail hr
    have h1 := searcher_nodes_empty s c.unix c.fetcher c.n hs
      (hfail (c, searcher s c.unix c.fetcher c.n) (Or.inl rfl))
    rcases hr with hr | hr
    · rw [hr]; exact h1.2
    · exact ih _ h1.1 (fun p hp => hfail p (Or.inr hp)) r hr

/-- C7 (empty-state safety): from the initial state, in every finite
sequence of calls at arbitrary times in which every fetch that is attempted
fails, every call returns `false`, whatever key it asks about. -/
theorem empty_state_safety (calls : List Call)
    (hfail : ∀ p ∈ List.zip calls (run CacheState.init calls),
      p.2.fetched = true → (p.1.fetcher ()).err ≠ none) :
    ∀ r ∈ run CacheState.init calls, r.allow = false :=
  run_nodes_empty calls CacheState.init rfl hfail

/-- Witness of C7: a call at 30 (no fetch attempted), then calls at 100 and
200 whose fetches fail while returning `[K1]`. -/
theorem empty_state_safety_witness :
    (∀ p ∈ List.zip
        [Call.mk 30 (fetcherOf [K1]) K1, Call.mk 100 (failingFetcher [K1] "EOF") K1,
          Call.mk 200 (failingFetcher [K1] "EOF") K2]
        (run CacheState.init
          [Call.mk 30 (fetcherOf [K1]) K1, Call.mk 100 (failingFetcher [K1] "EOF") K1,
            Call.mk 200 (failingFetcher [K1] "EOF") K2]),
      p.2.fetched = true → (p.1.fetcher ()).err ≠ none) ∧
    (∀ r ∈ run CacheState.init
        [Call.mk 30 (fetcherOf [K1]) K1, Call.mk 100 (failingFetcher [K1] "EOF") K1,
          Call.mk 200 (failingFetcher [K1] "EOF") K2],
      r.allow = false) :=
  ⟨by decide,
    empty_state_safety
      [Call.mk 30 (fetcherOf [K1]) K1, Call.mk 100 (failingFetcher [K1] "EOF") K1,
        Call.mk 200 (failingFetcher [K1] "EOF") K2]
      (by decide)⟩

/-- C3 at a failing input: the timestamp was last set at 4294967250; two
calls follow 10 and 15 seconds later, at 4294967260 and 4294967265.  The sum
`lastUpdate + 60` wraps around `2^32`, and both calls invoke the fetcher. -/
theorem throttle_two_fetches_at_wraparound :
    fetchCount (run ⟨[K1], 4294967250⟩
      [Call.mk 4294967260 (fetcherOf [K1]) K1, Call.mk 4294967265 (fetcherOf [K1]) K1]) = 2 := by
  decide

/-- C5 at a failing input: with the timestamp at 4294967200, a call at
4294967261 attempts a refresh that fails; it leaves the node list as it was
and the timestamp at 4294967261.  The next call, one second later and on the
state the first one left, invokes the fetcher again. -/
theorem failed_fetch_refetched_at_wraparound :
    (searcher ⟨[K1], 4294967200⟩ 4294967261 (failingFetcher [] "EOF") K1).fetched = true ∧
    (searcher ⟨[K1], 4294967200⟩ 4294967261 (failingFetcher [] "EOF") K1).state
      = ⟨[K1], 4294967261⟩ ∧
    (searcher (searcher ⟨[K1], 4294967200⟩ 4294967261 (failingFetcher [] "EOF") K1).state
      4294967262 (failingFetcher [] "EOF") K1).fetched = true := by
  decide

/-! ## The handler -/

theorem skipSpaces_replicate (n : Nat) (l : List Nat) :
    skipSpaces (List.replicate n 32 ++ l) = skipSpaces l := by
  induction n with
  | zero => rfl
  | succ k ih =>
    show skipSpaces (32 :: (List.replicate k 32 ++ l)) = skipSpaces l
    rw [skipSpaces]
    exact ih

theorem handler_post_error (decode : List Nat → Except Error DERPAdmitClientRequest)
    (s : CacheState) (unix : Int) (fetcher : Fetcher) (body : List Nat) (e : Error)
    (h : decode (body.take bodyLimit) = Except.error e) :
    (handler decode s unix fetcher { Method := "POST", Body := body }).written.status = 400 ∧
    (handler decode s unix fetcher { Method := "POST", Body := body }).searcherCalled
      = false := by
  simp [handler, MethodPost, h, StatusBadRequest]

theorem handler_post_ok (decode : List Nat → Except Error DERPAdmitClientRequest)
    (s : CacheState) (unix : Int) (fetcher : Fetcher) (body : List Nat)
    (q : DERPAdmitClientRequest)
    (h : decode (body.take bodyLimit) = Except.ok q)
    (ha : (searcher s unix fetcher q.NodePublic).allow = true) :
    (handler decode s unix fetcher { Method := "POST", Body := body }).written
      = { status := 200, body := "\x7b\"Allow\":true\x7d" } ∧
    (handler decode s unix fetcher { Method := "POST", Body := body }).searcherCalled
      = true := by
  simp [handler, MethodPost, h, jsonMarshal, ha, StatusOK]

theorem skipSpaces_K1 : skipSpaces K1.k = K1.k := by decide

theorem decodeKey_spaces_K1 (n : Nat) :
    decodeKey (List.replicate n 32 ++ K1.k) = Except.ok { NodePublic := K1, Source := "" } := by
  simp only [decodeKey, skipSpaces_replicate, skipSpaces_K1]
  rfl

theorem decodeKey_spaces (n : Nat) :
    decodeKey (List.replicate n 32) = Except.error "unexpected EOF" := by
  have h : skipSpaces (List.replicate n 32) = [] := by
    have := skipSpaces_replicate n []
    simpa [skipSpaces] using this
  simp [decodeKey, h]

/-- C10 as stated fails: a POST whose body is 8192 spaces followed by the
32 bytes of `K1` decodes as a request for `K1`, yet the handler, whose decoder
reads at most `1<<13 = 8192` bytes of the body, answers 400 and does not call
`searcher`. -/
theorem handler_rejects_decodable_long_body :
    decodeKey (List.replicate 8192 32 ++ K1.k)
      = Except.ok { NodePublic := K1, Source := "" } ∧
    (handler decodeKey ⟨[K1], 0⟩ 30 (fetcherOf [K1])
      { Method := "POST", Body := List.replicate 8192 32 ++ K1.k }).written.status = 400 ∧
    (handler decodeKey ⟨[K1], 0⟩ 30 (fetcherOf [K1])
      { Method := "POST", Body := List.replicate 8192 32 ++ K1.k }).searcherCalled = false := by
  have ht : List.take bodyLimit (List.replicate 8192 32 ++ K1.k) = List.replicate 8192 32 :=
    List.take_left' (List.length_replicate 8192 32)
  have hd : decodeKey (List.take bodyLimit (List.replicate 8192 32 ++ K1.k))
      = Except.error "unexpected EOF" := by
    rw [ht]; exact decodeKey_spaces 8192
  exact ⟨decodeKey_spaces_K1 8192,
    handler_post_error decodeKey ⟨[K1], 0⟩ 30 (fetcherOf [K1]) _ _ hd⟩

/-- C10 (amended): for every request the handler receives, it calls
`searcher` exactly when the method is POST and the first 8192 bytes of the
body decode; a request with another method gets status 405 and a body whose
first 8192 bytes do not decode gets status 400, in both cases with no call of
`searcher`, no fetch and the cache state unchanged; an accepted request gets
status 200 and the JSON encoding of a response whose `Allow` is the decision
of `searcher` for the request's `NodePublic`. -/
theorem handler_gating (decode : List Nat → Except Error DERPAdmitClientRequest)
    (s : CacheState) (unix : Int) (fetcher : Fetcher) (r : Request) :
    ((handler decode s unix fetcher r).searcherCalled = true ↔
        r.Method = "POST" ∧ ∃ q, decode (r.Body.take 8192) = Except.ok q) ∧
      (r.Method ≠ "POST" →
        (handler decode s unix fetcher r).written.status = 405 ∧
        (handler decode s unix fetcher r).searcherCalled = false ∧
        (handler decode s unix fetcher r).fetched = false ∧
        (handler decode s unix fetcher r).state = s) ∧
      (r.Method = "POST" → ∀ e, decode (r.Body.take 8192) = Except.error e →
        (handler decode s unix fetcher r).written.status = 400 ∧
        (handler decode s unix fetcher r).searcherCalled = false ∧
        (handler decode s unix fetcher r).fetched = false ∧
        (handler decode s unix fetcher r).state = s) ∧
      (r.Method = "POST" → ∀ q, decode (r.Body.take 8192) = Except.ok q →
        (handler decode s unix fetcher r).written.status = 200 ∧
        jsonMarshal { Allow := (searcher s unix fetcher q.NodePublic).allow }
          = Except.ok (handler decode s unix fetcher r).written.body ∧
        (handler decode s unix fetcher r).written.body =
          (if (searcher s unix fetcher q.NodePublic).allow
            then "\x7b\"Allow\":true\x7d" else "\x7b\"Allow\":false\x7d") ∧
        (handler decode s unix fetcher r).state
          = (searcher s unix fetcher q.NodePublic).state) := by
  by_cases hm : r.Method = "POST"
  · cases hd : decode (r.Body.take 8192) with
    | error e =>
      simp [handler, MethodPost, bodyLimit, hm, hd, StatusBadRequest]
    | ok q =>
      cases ha : (searcher s unix fetcher q.NodePublic).allow <;>
        simp [handler, MethodPost, bodyLimit, hm, hd, jsonMarshal, ha, StatusOK]
  · simp [handler, MethodPost, hm, StatusMethodNotAllowed]

/-- A body of exactly 8192 bytes is read whole: a POST whose body is 8160
spaces followed by the 32 bytes of `K1` is accepted, `searcher` is called and
the answer is 200 with `Allow` true. -/
theorem handler_accepts_body_at_limit :
    (handler decodeKey ⟨[K1], 0⟩ 30 (fetcherOf [K1])
      { Method := "POST", Body := List.replicate 8160 32 ++ K1.k }).written
        = { status := 200, body := "\x7b\"Allow\":true\x7d" } ∧
    (handler decodeKey ⟨[K1], 0⟩ 30 (fetcherOf [K1])
      { Method := "POST", Body := List.replicate 8160 32 ++ K1.k }).searcherCalled = true := by
  have hl : (List.replicate 8160 32 ++ K1.k).length ≤ bodyLimit := by
    rw [List.length_append, List.length_replicate]
    decide
  have hd : decodeKey (List.take bodyLimit (List.replicate 8160 32 ++ K1.k))
      = Except.ok { NodePublic := K1, Source := "" } := by
    rw [List.take_of_length_le hl]; exact decodeKey_spaces_K1 8160
  exact handler_post_ok decodeKey ⟨[K1], 0⟩ 30 (fetcherOf [K1]) _ _ hd (by decide)

/-! ## Two calls at once -/

theorem step_now (sh : CacheState) (g : Goroutine) : (g.step sh).2.now = g.now := by
  obtain ⟨pc, now, fetcher, n, fetchedNodes, fetches, result⟩ := g
  cases pc <;> simp only [Goroutine.step] <;> split <;> rfl

theorem committed_step (sh : CacheState) (g : Goroutine) (h : g.Committed) :
    (g.step sh).2.Committed ∧
      ((g.step sh).1.lastUpdate = sh.lastUpdate ∨ (g.step sh).1.lastUpdate = g.now) := by
  obtain ⟨pc, now, fetcher, n, fetchedNodes, fetches, result⟩ := g
  cases pc
  · simp [Goroutine.Committed] at h
  · simp [Goroutine.Committed] at h
    simp [Goroutine.step, Goroutine.Committed, h]
  · simp [Goroutine.Committed] at h
    simp only [Goroutine.step]
    split <;> simp [Goroutine.Committed, h]
  · simp [Goroutine.Committed] at h
    simp [Goroutine.step, Goroutine.Committed, h]
  · simp [Goroutine.Committed] at h
    simp [Goroutine.step, Goroutine.Committed, h]
  · simp [Goroutine.Committed] at h
    simp [Goroutine.step, Goroutine.Committed, h]

theorem passive_step (sh : CacheState) (g : Goroutine) (h : g.Passive)
    (hnd : refreshDue sh.lastUpdate g.now = false) :
    (g.step sh).2.Passive ∧ (g.step sh).1 = sh := by
  obtain ⟨pc, now, fetcher, n, fetchedNodes, fetches, result⟩ := g
  cases pc
  · simp [Goroutine.Passive] at h
    simp at hnd
    simp [Goroutine.step, Goroutine.Passive, h, hnd]
  · simp [Goroutine.Passive] at h
  · simp [Goroutine.Passive] at h
  · simp [Goroutine.Passive] at h
  · simp [Goroutine.Passive] at h
    simp [Goroutine.step, Goroutine.Passive, h]
  · simp [Goroutine.Passive] at h
    simp [Goroutine.step, Goroutine.Passive, h]

theorem committed_done (g : Goroutine) (h : g.Committed) (hd : g.pc = Pc.done) :
    g.fetches = 1 := by
  rcases h with ⟨h1, _⟩ | ⟨_, h2⟩
  · rcases h1 with h1 | h1 <;> rw [hd] at h1 <;> cases h1
  · exact h2

theorem exec_both_committed (sched : List Who) :
    ∀ sys : System, sys.a.Committed → sys.b.Committed →
      (sys.exec sched).a.Committed ∧ (sys.exec sched).b.Committed := by
  induction sched with
  | nil => intro sys ha hb; exact ⟨ha, hb⟩
  | cons w ws ih =>
    intro sys ha hb
    cases w
    · exact ih (sys.step Who.A) (committed_step sys.shared sys.a ha).1 hb
    · exact ih (sys.step Who.B) ha (committed_step sys.shared sys.b hb).1

theorem exec_a_alone_fetches (now : Nat) (hnd : refreshDue now now = false)
    (sched : List Who) :
    ∀ sys : System, sys.a.Committed → sys.b.Passive → sys.shared.lastUpdate = now →
      sys.a.now = now → sys.b.now = now →
      (sys.exec sched).a.Committed ∧ (sys.exec sched).b.Passive := by
  induction sched with
  | nil => intro sys ha hb _ _ _; exact ⟨ha, hb⟩
  | cons w ws ih =>
    intro sys ha hb hl hna hnb
    cases w
    · have hc := committed_step sys.shared sys.a ha
      refine ih (sys.step Who.A) hc.1 hb ?_ ?_ hnb
      · rcases hc.2 with h | h
        · exact h.trans hl
        · exact h.trans hna
      · exact (step_now sys.shared sys.a).trans hna
    · have hp := passive_step sys.shared sys.b hb (by rw [hl, hnb]; exact hnd)
      refine ih (sys.step Who.B) ha hp.1 ?_ hna ?_
      · show (sys.b.step sys.shared).1.lastUpdate = now
        rw [hp.2]; exact hl
      · exact (step_now sys.shared sys.b).trans hnb

theorem exec_b_alone_fetches (now : Nat) (hnd : refreshDue now now = false)
    (sched : List Who) :
    ∀ sys : System, sys.b.Committed → sys.a.Passive → sys.shared.lastUpdate = now →
      sys.a.now = now → sys.b.now = now →
      (sys.exec sched).b.Committed ∧ (sys.exec sched).a.Passive := by
  induction sched with
  | nil => intro sys hb ha _ _ _; exact ⟨hb, ha⟩
  | cons w ws ih =>
    intro sys hb ha hl hna hnb
    cases w
    · have hp := passive_step sys.shared sys.a ha (by rw [hl, hna]; exact hnd)
      refine ih (sys.step Who.A) hb hp.1 ?_ ?_ hnb
      · show (sys.a.step sys.shared).1.lastUpdate = now
        rw [hp.2]; exact hl
      · exact (step_now sys.shared sys.a).trans hna
    · have hc := committed_step sys.shared sys.b hb
      refine ih (sys.step Who.B) hc.1 ha ?_ hna ?_
      · rcases hc.2 with h | h
        · exact h.trans hl
        · exact h.trans hnb
      · exact (step_now sys.shared sys.b).trans hnb

theorem refreshDue_self (now : Nat) (hwrap : now + 60 < 4294967296) :
    refreshDue now now = false := by
  cases h : refreshDue now now
  · rfl
  · have := (refreshDue_no_wrap now now hwrap).mp h
    omega

theorem step_remaining (sh : CacheState) (g : Goroutine) :
    (g.step sh).2.pc.remaining ≤ g.pc.remaining - 1 := by
  obtain ⟨pc, now, fetcher, n, fetchedNodes, fetches, result⟩ := g
  cases pc <;> simp only [Goroutine.step] <;> (try split) <;> simp [Pc.remaining]

theorem remaining_eq_zero (pc : Pc) (h : pc.remaining = 0) : pc = Pc.done := by
  cases pc <;> simp [Pc.remaining] at h ⊢

theorem remaining_le (pc : Pc) : pc.remaining ≤ 5 := by
  cases pc <;> simp [Pc.remaining]

theorem exec_remaining (sched : List Who) :
    ∀ sys : System,
      (sys.exec sched).a.pc.remaining ≤ sys.a.pc.remaining - sched.count Who.A ∧
      (sys.exec sched).b.pc.remaining ≤ sys.b.pc.remaining - sched.count Who.B := by
  induction sched with
  | nil => intro sys; simp [System.exec]
  | cons w ws ih =>
    intro sys
    cases w
    · have h := ih (sys.step Who.A)
      have hs := step_remaining sys.shared sys.a
      have ha : (sys.step Who.A).a = (sys.a.step sys.shared).2 := rfl
      have hb : (sys.step Who.A).b = sys.b := rfl
      rw [ha, hb] at h
      simp only [System.exec, List.count_cons_self]
      rw [List.count_cons_of_ne (by decide)]
      omega
    · have h := ih (sys.step Who.B)
      have hs := step_remaining sys.shared sys.b
      have ha : (sys.step Who.B).a = sys.a := rfl
      have hb : (sys.step Who.B).b = (sys.b.step sys.shared).2 := rfl
      rw [ha, hb] at h
      simp only [System.exec, List.count_cons_self]
      rw [List.count_cons_of_ne (by decide)]
      omega

/-- Every schedule that picks each goroutine at least five times runs both
calls to their return. -/
theorem exec_finished (sys : System) (sched : List Who)
    (ha : 5 ≤ sched.count Who.A) (hb : 5 ≤ sched.count Who.B) :
    (sys.exec sched).finished := by
  have h := exec_remaining sched sys
  have h1 := remaining_le sys.a.pc
  have h2 := remaining_le sys.b.pc
  exact ⟨remaining_eq_zero _ (by omega), remaining_eq_zero _ (by omega)⟩

/-- A goroutine scheduled alone does what `searcher` does: after its five
steps the shared variables are the state `searcher` leaves, its result is the
decision of `searcher`, and it has invoked the fetcher once or not at all as
`searcher` did. -/
theorem exec_alone_eq_searcher (s : CacheState) (unix : Int) (fetcher : Fetcher)
    (n : NodePublic) (b : Goroutine) :
    ((System.mk s (Goroutine.start unix fetcher n) b).exec
        [Who.A, Who.A, Who.A, Who.A, Who.A]).shared = (searcher s unix fetcher n).state ∧
    ((System.mk s (Goroutine.start unix fetcher n) b).exec
        [Who.A, Who.A, Who.A, Who.A, Who.A]).a.result
      = some (searcher s unix fetcher n).allow ∧
    ((System.mk s (Goroutine.start unix fetcher n) b).exec
        [Who.A, Who.A, Who.A, Who.A, Who.A]).a.fetches
      = (if (searcher s unix fetcher n).fetched then 1 else 0) ∧
    ((System.mk s (Goroutine.start unix fetcher n) b).exec
        [Who.A, Who.A, Who.A, Who.A, Who.A]).a.pc = Pc.done := by
  cases hd : refreshDue s.lastUpdate (uint32 unix)
  · simp [System.exec, System.step, Goroutine.step, Goroutine.start, searcher, refresh, hd]
  · cases he : (fetcher ()).err <;>
      simp [System.exec, System.step, Goroutine.step, Goroutine.start, searcher, refresh,
        hd, he]

/-- C8 as stated fails: after a last attempt at 0, two calls both made at
clock reading 61 and scheduled in turn run to their return and invoke the
fetcher twice between them. -/
theorem simultaneous_calls_fetch_twice :
    ((System.start ⟨[], 0⟩ 61 (fetcherOf [K1]) (fetcherOf [K1]) K1 K1).exec
        [Who.A, Who.B, Who.A, Who.B, Who.A, Who.B, Who.A, Who.B, Who.A, Who.B]).finished ∧
    ((System.start ⟨[], 0⟩ 61 (fetcherOf [K1]) (fetcherOf [K1]) K1 K1).exec
        [Who.A, Who.B, Who.A, Who.B, Who.A, Who.B, Who.A, Who.B, Who.A, Who.B]).fetches
      = 2 := by
  refine ⟨⟨?_, ?_⟩, ?_⟩ <;> decide

/-- C8 (amended): two calls run concurrently with the same clock reading,
past the interval boundary, and `now + 60` does not wrap around `2^32`.  In
every interleaving that runs both calls to their return the fetcher is
invoked once or twice: twice when both calls load the timestamp before either
stores it, exactly once in every other interleaving. -/
theorem simultaneous_calls_fetches (s : CacheState) (unix : Int) (fa fb : Fetcher)
    (na nb : NodePublic) (sched : List Who)
    (hdue : refreshDue s.lastUpdate (uint32 unix) = true)
    (hwrap : uint32 unix + 60 < 4294967296)
    (hfin : ((System.start s unix fa fb na nb).exec sched).finished) :
    ((System.start s unix fa fb na nb).exec sched).fetches
      = if loadsFirst sched then 2 else 1 := by
  have hself := refreshDue_self (uint32 unix) hwrap
  match sched, hfin with
  | [], hfin =>
    exact absurd hfin.1 (by simp [System.exec, System.start, Goroutine.start])
  | [Who.A], hfin =>
    exact absurd hfin.2 (by simp [System.exec, System.step, System.start, Goroutine.start])
  | [Who.B], hfin =>
    exact absurd hfin.1 (by simp [System.exec, System.step, System.start, Goroutine.start])
  | Who.A :: Who.A :: rest, hfin =>
    have h := exec_a_alone_fetches (uint32 unix) hself rest
      (((System.start s unix fa fb na nb).step Who.A).step Who.A)
      (by simp [System.step, System.start, Goroutine.start, Goroutine.step,
            Goroutine.Committed, hdue])
      (by simp [System.step, System.start, Goroutine.start, Goroutine.step,
            Goroutine.Passive, hdue])
      (by simp [System.step, System.start, Goroutine.start, Goroutine.step, hdue])
      (by simp [System.step, System.start, Goroutine.start, Goroutine.step, hdue])
      (by simp [System.step, System.start, Goroutine.start, Goroutine.step, hdue])
    have e1 := committed_done _ h.1 hfin.1
    have e2 := h.2.2
    simp only [System.exec] at e1 e2 ⊢
    simp [System.fetches, loadsFirst, e1, e2]
  | Who.B :: Who.B :: rest, hfin =>
    have h := exec_b_alone_fetches (uint32 unix) hself rest
      (((System.start s unix fa fb na nb).step Who.B).step Who.B)
      (by simp [System.step, System.start, Goroutine.start, Goroutine.step,
            Goroutine.Committed, hdue])
      (by simp [System.step, System.start, Goroutine.start, Goroutine.step,
            Goroutine.Passive, hdue])
      (by simp [System.step, System.start, Goroutine.start, Goroutine.step, hdue])
      (by simp [System.step, System.start, Goroutine.start, Goroutine.step, hdue])
      (by simp [System.step, System.start, Goroutine.start, Goroutine.step, hdue])
    have e1 := committed_done _ h.1 hfin.2
    have e2 := h.2.2
    simp only [System.exec] at e1 e2 ⊢
    simp [System.fetches, loadsFirst, e1, e2]
  | Who.A :: Who.B :: rest, hfin =>
    have h := exec_both_committed rest
      (((System.start s unix fa fb na nb).step Who.A).step Who.B)
      (by simp [System.step, System.start, Goroutine.start, Goroutine.step,
            Goroutine.Committed, hdue])
      (by simp [System.step, System.start, Goroutine.start, Goroutine.step,
            Goroutine.Committed, hdue])
    have e1 := committed_done _ h.1 hfin.1
    have e2 := committed_done _ h.2 hfin.2
    simp only [System.exec] at e1 e2 ⊢
    simp [System.fetches, loadsFirst, e1, e2]
  | Who.B :: Who.A :: rest, hfin =>
    have h := exec_both_committed rest
      (((System.start s unix fa fb na nb).step Who.B).step Who.A)
      (by simp [System.step, System.start, Goroutine.start, Goroutine.step,
            Goroutine.Committed, hdue])
      (by simp [System.step, System.start, Goroutine.start, Goroutine.step,
            Goroutine.Committed, hdue])
    have e1 := committed_done _ h.1 hfin.1
    have e2 := committed_done _ h.2 hfin.2
    simp only [System.exec] at e1 e2 ⊢
    simp [System.fetches, loadsFirst, e1, e2]

/-- Witness of C8 (amended): last attempt at 0, both calls at 61, goroutine A
runs to its return before goroutine B starts. -/
theorem simultaneous_calls_fetches_witness :
    refreshDue (CacheState.mk [] 0).lastUpdate (uint32 61) = true ∧
    uint32 61 + 60 < 4294967296 ∧
    ((System.start ⟨[], 0⟩ 61 (fetcherOf [K1]) (fetcherOf [K1]) K1 K1).exec
        [Who.A, Who.A, Who.A, Who.A, Who.A, Who.B, Who.B]).finished ∧
    ((System.start ⟨[], 0⟩ 61 (fetcherOf [K1]) (fetcherOf [K1]) K1 K1).exec
        [Who.A, Who.A, Who.A, Who.A, Who.A, Who.B, Who.B]).fetches
      = if loadsFirst [Who.A, Who.A, Who.A, Who.A, Who.A, Who.B, Who.B] then 2 else 1 :=
  ⟨by decide, by decide, ⟨by decide, by decide⟩,
    simultaneous_calls_fetches ⟨[], 0⟩ 61 (fetcherOf [K1]) (fetcherOf [K1]) K1 K1
      [Who.A, Who.A, Who.A, Who.A, Who.A, Who.B, Who.B] (by decide) (by decide)
      ⟨by decide, by decide⟩⟩

/-! ## The throttle away from the wrap-around -/

/-- The staleness clock of one call: the timestamp after the call is the
call's clock reading (as a `uint32`) when the fetcher was invoked, whether it
succeeded or failed, and its previous value otherwise. -/
theorem searcher_lastUpdate (s : CacheState) (unix : Int) (fetcher : Fetcher)
    (n : NodePublic) :
    (searcher s unix fetcher n).state.lastUpdate =
      if (searcher s unix fetcher n).fetched then uint32 unix else s.lastUpdate := by
  rw [searcher_fetched]
  cases hd : refreshDue s.lastUpdate (uint32 unix)
  · rw [searcher_state_not_due s unix fetcher n hd]; rfl
  · cases he : (fetcher ()).err with
    | none => rw [searcher_state_updated s unix fetcher n hd he]; rfl
    | some e => rw [searcher_state_failed s unix fetcher n hd e he]; rfl

theorem fetchCount_cons (r : SearchResult) (rs : List SearchResult) :
    fetchCount (r :: rs) = fetchCount rs + (if r.fetched then 1 else 0) := by
  simp [fetchCount, List.countP_cons]

theorem no_fetch_before_interval (calls : List Call) :
    ∀ s : CacheState, s.lastUpdate + 60 < 4294967296 →
      (∀ c ∈ calls, 0 ≤ c.unix ∧ c.unix ≤ (s.lastUpdate : Int) + 60) →
      fetchCount (run s calls) = 0 := by
  induction calls with
  | nil => intro s _ _; rfl
  | cons c cs ih =>
    intro s hw hc
    have hc0 := hc c (List.mem_cons_self c cs)
    have hu := uint32_of_range c.unix hc0.1 (by omega)
    have hnd : refreshDue s.lastUpdate (uint32 c.unix) = false := by
      cases h : refreshDue s.lastUpdate (uint32 c.unix)
      · rfl
      · have := (refreshDue_no_wrap _ _ hw).mp h
        omega
    have hf : (searcher s c.unix c.fetcher c.n).fetched = false := by
      rw [searcher_fetched, hnd]
    have hs := searcher_state_not_due s c.unix c.fetcher c.n hnd
    simp only [run, fetchCount_cons, hf, hs]
    rw [ih s hw (fun d hd => hc d (List.mem_cons_of_mem c hd))]
    rfl

/-- The throttle where no `uint32` wraps: in a sequence of calls whose clock
readings all lie in one window of 60 seconds that ends at least 60 seconds
before `2^32`, at most one call invokes the fetcher, from every state and
whatever the fetches return. -/
theorem throttle_within_interval (calls : List Call) (t0 : Int) (h0 : 0 ≤ t0)
    (h1 : t0 + 120 < 4294967296)
    (hwin : ∀ c ∈ calls, t0 ≤ c.unix ∧ c.unix ≤ t0 + 60) :
    ∀ s : CacheState, fetchCount (run s calls) ≤ 1 := by
  induction calls with
  | nil => intro s; simp [run, fetchCount]
  | cons c cs ih =>
    intro s
    have hc0 := hwin c (List.mem_cons_self c cs)
    have hrest : ∀ d ∈ cs, t0 ≤ d.unix ∧ d.unix ≤ t0 + 60 :=
      fun d hd => hwin d (List.mem_cons_of_mem c hd)
    have hu := uint32_of_range c.unix (by omega) (by omega)
    have hl := searcher_lastUpdate s c.unix c.fetcher c.n
    simp only [run, fetchCount_cons]
    cases hf : (searcher s c.unix c.fetcher c.n).fetched
    · have := ih hrest (searcher s c.unix c.fetcher c.n).state
      simpa using this
    · rw [hf] at hl
      simp only [if_true] at hl
      have hz := no_fetch_before_interval cs (searcher s c.unix c.fetcher c.n).state
        (by rw [hl]; omega)
        (fun d hd => by
          have := hrest d hd
          rw [hl]
          constructor <;> omega)
      rw [hz]
      simp

/-- An instance of the throttle: from a state last refreshed at 1000, calls
at 1061, 1090 and 1121 make one fetch. -/
theorem throttle_within_interval_witness :
    (0 : Int) ≤ 1061 ∧ (1061 : Int) + 120 < 4294967296 ∧
    fetchCount (run ⟨[K1], 1000⟩
      [Call.mk 1061 (fetcherOf [K1]) K1, Call.mk 1090 (failingFetcher [] "EOF") K2,
        Call.mk 1121 (fetcherOf [K2]) K1]) ≤ 1 :=
  ⟨by decide, by decide,
    throttle_within_interval
      [Call.mk 1061 (fetcherOf [K1]) K1, Call.mk 1090 (failingFetcher [] "EOF") K2,
        Call.mk 1121 (fetcherOf [K2]) K1]
      1061 (by decide) (by decide) (by decide) ⟨[K1], 1000⟩⟩

/-- The staleness clock and the frame of one call: a call that invokes the
fetcher leaves the timestamp at its own clock reading (as a `uint32`) whether
the fetch succeeded or failed, and a call that does not invoke it leaves the
whole cache state as it was. -/
theorem staleness_clock (s : CacheState) (unix : Int) (fetcher : Fetcher)
    (n : NodePublic) :
    ((searcher s unix fetcher n).fetched = true →
        (searcher s unix fetcher n).state.lastUpdate = uint32 unix) ∧
      ((searcher s unix fetcher n).fetched = false →
        (searcher s unix fetcher n).state = s) := by
  constructor
  · intro h
    have hl := searcher_lastUpdate s unix fetcher n
    rw [h] at hl
    simpa using hl
  · intro h
    rw [searcher_fetched] at h
    exact searcher_state_not_due s unix fetcher n h

/-- An instance of `exec_finished`: the schedule that alternates the two
goroutines five times each. -/
theorem exec_finished_witness :
    5 ≤ [Who.A, Who.B, Who.A, Who.B, Who.A, Who.B, Who.A, Who.B, Who.A, Who.B].count Who.A ∧
    5 ≤ [Who.A, Who.B, Who.A, Who.B, Who.A, Who.B, Who.A, Who.B, Who.A, Who.B].count Who.B ∧
    ((System.start ⟨[K1], 0⟩ 61 (fetcherOf [K2]) (failingFetcher [] "EOF") K1 K2).exec
      [Who.A, Who.B, Who.A, Who.B, Who.A, Who.B, Who.A, Who.B, Who.A, Who.B]).finished :=
  ⟨by decide, by decide,
    exec_finished (System.start ⟨[K1], 0⟩ 61 (fetcherOf [K2]) (failingFetcher [] "EOF") K1 K2)
      [Who.A, Who.B, Who.A, Who.B, Who.A, Who.B, Who.A, Who.B, Who.A, Who.B]
      (by decide) (by decide)⟩

/-! ## Membership as equality, and the scenarios -/

/-- The decision of `searcher` is membership in the list: it returns `true`
exactly when the key is an element of the node list current after the
refresh block. -/
theorem searcher_allow_iff_mem (s : CacheState) (unix : Int) (fetcher : Fetcher)
    (x : NodePublic) :
    (searcher s unix fetcher x).allow = true ↔
      x ∈ (searcher s unix fetcher x).state.nodes := by
  rw [searcher_allow, lookup_eq_true_iff]
  constructor
  · rintro ⟨m, hm, hc⟩
    rw [(compare_eq_zero_iff x m).mp hc]
    exact hm
  · intro h
    exact ⟨x, h, (compare_eq_zero_iff x x).mpr rfl⟩

/-- Scenario A: with the list `{K1, K2}` and no refresh due, `K1` is admitted
and `K3` is not. -/
theorem scenario_A :
    (searcher ⟨[K1, K2], 1000⟩ 1030 (fetcherOf []) K1).allow = true ∧
    (searcher ⟨[K1, K2], 1000⟩ 1030 (fetcherOf []) K3).allow = false := by
  decide

/-- Scenario C: the list is `{K1}` and the last attempt was at 0.  A call at
61 whose fetch fails keeps `{K1}`, admits `K1` and sets the timestamp to 61;
from that state a call at 121 does not invoke the fetcher and a call at 122
does. -/
theorem scenario_C :
    (searcher ⟨[K1], 0⟩ 61 (failingFetcher [] "EOF") K1).fetched = true ∧
    (searcher ⟨[K1], 0⟩ 61 (failingFetcher [] "EOF") K1).state = ⟨[K1], 61⟩ ∧
    (searcher ⟨[K1], 0⟩ 61 (failingFetcher [] "EOF") K1).allow = true ∧
    (searcher ⟨[K1], 61⟩ 121 (fetcherOf [K2]) K1).fetched = false ∧
    (searcher ⟨[K1], 61⟩ 122 (fetcherOf [K2]) K1).fetched = true := by
  decide

end DerpVerifier
